import Mathlib

set_option maxHeartbeats 1000000

/-!
Verification of the Widget-based-LED-display firmware core against its
specification.  The Python sources are shallowly embedded:

* Python strings (and byte strings) are modelled as `List Char`; each
  character of a byte string stands for one byte.
* Python `float` monotonic-clock values and epoch timestamps are modelled
  in whole seconds as `Int` (the device code truncates float deltas with
  `int(...)` before using them).
* Fallible operations return `Option`; callbacks are modelled as data
  (identifiers) together with explicit state transformers, and callback
  invocations are recorded in ghost trace fields.
* External collaborators (the adafruit transport, the uzlib decompressor,
  the JSON parser) are parameters of the step functions, exactly as the
  spec designates them external.
-/

namespace WidgetDisplay

/-- Python strings are embedded as lists of characters so that every string
operation is a structurally recursive, kernel-computable function. -/
abbrev Str := List Char

/-- Shorthand turning a Lean string literal into the embedded string type. -/
def S (s : String) : Str := s.data

/-- Model of Python `str.strip()` with no arguments: remove leading and
trailing whitespace. -/
def pyStrip (s : Str) : Str :=
  ((s.dropWhile Char.isWhitespace).reverse.dropWhile Char.isWhitespace).reverse

/-- Model of Python `str.lower()` (ASCII is all the firmware uses). -/
def pyLower (s : Str) : Str := s.map Char.toLower

/-- Model of Python `str.upper()` (ASCII is all the firmware uses). -/
def pyUpper (s : Str) : Str := s.map Char.toUpper

/-- Split a string at every character satisfying `p`, keeping empty pieces,
like Python `str.split(sep)` with an explicit separator. -/
def splitPred (p : Char → Bool) : Str → List Str
  | [] => [[]]
  | c :: rest =>
    let r := splitPred p rest
    if p c then [] :: r
    else
      match r with
      | [] => [[c]]
      | x :: xs => (c :: x) :: xs

/-- Model of Python `str.split()` with no arguments: split on whitespace
runs and drop empty pieces. -/
def pySplitWS (s : Str) : List Str :=
  (splitPred Char.isWhitespace s).filter (· ≠ [])

/-- Model of Python `str.split(sep, 1)`: the part before the first
occurrence of `sep`, and (when `sep` occurs) the remainder after it. -/
def splitOnce (sep : Char) : Str → Str × Option Str
  | [] => ([], none)
  | c :: rest =>
    if c = sep then ([], some rest)
    else
      let r := splitOnce sep rest
      (c :: r.1, r.2)

/-- Value of a nonempty all-digit string, `none` otherwise. -/
def digitsVal? : Str → Option Nat
  | [] => none
  | [c] => if c.isDigit then some (c.toNat - '0'.toNat) else none
  | c :: rest =>
    if c.isDigit then
      match digitsVal? rest with
      | some n => some ((c.toNat - '0'.toNat) * 10 ^ rest.length + n)
      | none => none
    else none

/-- Model of Python `int(s)` on the decimal literals the firmware feeds it:
surrounding whitespace is ignored and an optional sign is allowed; any
other shape raises, which the embedding renders as `none`. -/
def pyInt? (s : Str) : Option Int :=
  match pyStrip s with
  | '-' :: ds => (digitsVal? ds).map (fun n => -(n : Int))
  | '+' :: ds => (digitsVal? ds).map (fun n => (n : Int))
  | ds => (digitsVal? ds).map (fun n => (n : Int))

/-- Model of Python `dict.get` on a string-keyed dictionary embedded as an
association list in insertion order. -/
def dictGet (d : List (Str × Str)) (k : Str) : Option Str :=
  (d.find? (fun p => p.1 = k)).map (·.2)

/-! ## Monotonic epoch extrapolation (claim C5)

`MuniStop.get_utc_epoch` (src/pi_files/api/muni_api.py) and
`WeatherClient.get_utc_epoch` (src/pi_files/api/weather_request_api.py).
Both receive an explicit monotonic `now`; the default-argument branch that
reads the hardware clock is outside the embedding.  Times are in whole
seconds, so the source's `int(now - last)` is the plain difference. -/

namespace MuniStop

/-- Embedding of `MuniStop.get_utc_epoch`: `None` until both a server
epoch and its capture instant exist, otherwise the server epoch plus the
non-negative elapsed monotonic time. -/
def get_utc_epoch (response_epoch : Option Int)
    (last_update_monotonic : Option Int) (now_monotonic : Int) : Option Int :=
  match response_epoch, last_update_monotonic with
  | some e, some m =>
    let delta := now_monotonic - m
    some (e + max 0 delta)
  | _, _ => none

end MuniStop

namespace WeatherClient

/-- Embedding of `WeatherClient.get_utc_epoch`, structurally identical to
the transit client's extrapolation. -/
def get_utc_epoch (current_epoch : Option Int)
    (last_update_monotonic : Option Int) (now_monotonic : Int) : Option Int :=
  match current_epoch, last_update_monotonic with
  | some e, some m =>
    let delta := now_monotonic - m
    some (e + max 0 delta)
  | _, _ => none

end WeatherClient

/-! ## Temperature conversion (claim C9)

`_normalize_unit` and `_convert_temperature` from
src/pi_files/widgets/train_time.py.  Float arithmetic is embedded as exact
rational arithmetic; the source formulas contain only `+ - * /` by the
constants 32, 5 and 9. -/

/-- Embedding of `_normalize_unit`: trim, lowercase, and map everything
starting with `c` to celsius, anything else to fahrenheit.  The Python
parameter may be `None`, embedded as `Option Str`. -/
def _normalize_unit (unit : Option Str) : Str :=
  let value := pyLower (pyStrip (unit.getD []))
  if S "c" <+: value then S "celsius" else S "fahrenheit"

/-- Embedding of `_convert_temperature`: convert between Fahrenheit and
Celsius, passing the value through when the units agree.  The numeric value
is already rational, so the source's `float(value)` coercion never fails. -/
def _convert_temperature (value : Option ℚ) (from_unit to_unit : Option Str) :
    Option ℚ :=
  match value with
  | none => none
  | some temp =>
    let base := _normalize_unit from_unit
    let target := _normalize_unit to_unit
    if base = target then some temp
    else if base = S "fahrenheit" ∧ target = S "celsius" then
      some ((temp - 32) * 5 / 9)
    else if base = S "celsius" ∧ target = S "fahrenheit" then
      some (temp * 9 / 5 + 32)
    else some temp

/-! ## Cron schedule matcher (claims C7 and C10)

`CronSchedule`, `_match_field`, `_parse_field` and `_expand_part` from
src/pi_files/widgets/announcements.py. -/

/-- Model of Python `range(start, stop, step)` for `step ≥ 1`, the only
shape `_expand_part` produces. -/
def rangeStep (start stop step : Int) : List Int :=
  (List.range (if stop ≤ start then 0 else ((stop - start + step - 1) / step).toNat)).map
    (fun i => start + step * (i : Int))

/-- Embedding of `_expand_part`: expand one cron field fragment into the
list of values it denotes, or `none` when the fragment does not parse. -/
def _expand_part (part : Str) (min_value max_value : Int) : Option (List Int) :=
  if part = S "*" then some (rangeStep min_value (max_value + 1) 1)
  else
    let sp := splitOnce '/' part
    let base := sp.1
    let step? : Option Int :=
      match sp.2 with
      | none => none
      | some step_text => pyInt? step_text
    if base = S "*" then
      let step := match step? with
        | some st => if st ≤ 0 then 1 else st
        | none => 1
      some (rangeStep min_value (max_value + 1) step)
    else if base.contains '-' then
      match (splitOnce '-' base).2 with
      | some end_text =>
        match pyInt? (splitOnce '-' base).1, pyInt? end_text with
        | some start, some stop =>
          let step := match step? with
            | some st => if st ≤ 0 then 1 else st
            | none => 1
          some (rangeStep start (stop + 1) step)
        | _, _ => none
      | none => none
    else
      match pyInt? base with
      | none => none
      | some v =>
        match step? with
        | some st => if 1 < st then some (rangeStep v (max_value + 1) st) else some [v]
        | none => some [v]

/-- Recursion over the comma-separated parts of a cron field, accumulating
the union of their expansions; any unparseable part makes the whole field a
wildcard, exactly as the source's early `return None`. -/
def parseParts (min_value max_value : Int) : List Str → Finset ℤ → Option (Finset ℤ)
  | [], acc => some acc
  | p :: rest, acc =>
    let p := pyStrip p
    if p = [] then parseParts min_value max_value rest acc
    else
      match _expand_part p min_value max_value with
      | none => none
      | some xs => parseParts min_value max_value rest (acc ∪ xs.toFinset)

/-- Embedding of `_parse_field`: a cron field becomes a set of allowed
values, or `none` for a wildcard. -/
def _parse_field (field : Str) (min_value max_value : Int) : Option (Finset ℤ) :=
  let field := pyStrip field
  if field = [] ∨ field = S "*" then none
  else
    match parseParts min_value max_value (splitPred (· = ',') field) ∅ with
    | none => none
    | some values => if values = ∅ then none else some values

/-- Embedding of `_match_field`: a wildcard accepts everything, otherwise
membership decides. -/
def _match_field (values : Option (Finset ℤ)) (value : Int) : Bool :=
  match values with
  | none => true
  | some s => value ∈ s

/-- Parsed cron schedule: one parsed field per position, as cached by
`CronSchedule.__init__`. -/
structure CronSchedule where
  minute : Option (Finset ℤ)
  hour : Option (Finset ℤ)
  dom : Option (Finset ℤ)
  month : Option (Finset ℤ)
  dow : Option (Finset ℤ)
deriving DecidableEq

/-- Field parsing performed by `CronSchedule.__init__` once the five field
strings are fixed, including the Sunday normalization `7 → {0, 7}`. -/
def cronOfFields (f0 f1 f2 f3 f4 : Str) : CronSchedule :=
  let dow0 := _parse_field f4 0 7
  { minute := _parse_field f0 0 59
    hour := _parse_field f1 0 23
    dom := _parse_field f2 1 31
    month := _parse_field f3 1 12
    dow :=
      match dow0 with
      | some v => if (7 : ℤ) ∈ v then some (insert 0 v) else some v
      | none => none }

/-- Embedding of `CronSchedule.__init__`: `expr or "* * * * *"` (so `None`
and the empty string fall back to the wildcard expression), whitespace
split, and replacement by five wildcards when the field count is not 5. -/
def mkCronSchedule (expr : Option Str) : CronSchedule :=
  let raw : Str :=
    match expr with
    | none => S "* * * * *"
    | some s => if s = [] then S "* * * * *" else s
  let fields := pySplitWS (pyStrip raw)
  match fields with
  | [f0, f1, f2, f3, f4] => cronOfFields f0 f1 f2 f3 f4
  | _ => cronOfFields (S "*") (S "*") (S "*") (S "*") (S "*")

/-- Time tuple as consumed by `CronSchedule.matches`; `tm_wday` follows
Python `time.localtime` (0 = Monday .. 6 = Sunday). -/
structure TimeTuple where
  tm_min : Int
  tm_hour : Int
  tm_mday : Int
  tm_mon : Int
  tm_wday : Int
deriving DecidableEq

/-- Embedding of `CronSchedule.matches`: `None` never matches; otherwise
every field must accept, with the weekday renumbered from Python's
Monday-based convention to cron's Sunday-based one. -/
def CronSchedule.matches (c : CronSchedule) (tm : Option TimeTuple) : Bool :=
  match tm with
  | none => false
  | some t =>
    let dow := (t.tm_wday + 1) % 7
    _match_field c.minute t.tm_min && _match_field c.hour t.tm_hour &&
      _match_field c.dom t.tm_mday && _match_field c.month t.tm_mon &&
      _match_field c.dow dow

/-- Number of whitespace-separated fields the raw cron expression splits
into; `None` contributes zero fields. -/
def exprFieldCount (expr : Option Str) : Nat :=
  match expr with
  | none => 0
  | some s => (pySplitWS (pyStrip s)).length

/-! ## The queued HTTP client (claims C1, C2, C3)

`HttpClient` from src/pi_files/api/http_client.py.  Callbacks are modelled
as opaque data of type `κ` carried by each queued request; the transport
(`adafruit_requests` session issuing the request) and the `uzlib`
decompressor are external collaborators, passed in as functions.  The
`tick` step reports which callback fired and with which arguments through
a `TickEvent` value.  Logging (`print`, `_log_ignored`'s rate limiter,
`_log_network_state`) and the `io_indicator` side channel have no effect
on the client state and are not modelled; `on_progress` callbacks carry no
data and are likewise omitted. -/

/-- Result of one transport call: a response (content bytes, status code,
response headers) or a raised exception, described by its repr text. -/
inductive TransportResult where
  | response (content : Str) (status_code : Int) (headers : List (Str × Str))
  | failure (exc : Str)
deriving DecidableEq

/-- Embedding of `_HttpRequest`: one queued request.  `key` is already the
resolved request key and `method` the upper-cased method, as normalized by
`enqueue_request` and `_HttpRequest.__init__`. -/
structure HttpRequest (κ : Type) where
  url : Str
  key : Str
  timeout : Int
  method : Str
  headers : List (Str × Str)
  body : Option Str
  cb : κ
deriving DecidableEq

/-- Embedding of the `HttpClient` state: FIFO queue, pending-key set
(kept as a duplicate-free list) and the lazily created session (`true`
when a live session handle exists). -/
structure HttpClient (κ : Type) where
  queue : List (HttpRequest κ)
  pending_keys : List Str
  session : Bool
deriving DecidableEq

/-- The empty client produced by `HttpClient.__init__`. -/
def HttpClient.init (κ : Type) : HttpClient κ :=
  { queue := [], pending_keys := [], session := false }

/-- Resolution `request_key = key or url` (an absent or empty key falls
back to the URL). -/
def requestKey (key : Option Str) (url : Str) : Str :=
  match key with
  | some k => if k = [] then url else k
  | none => url

/-- Request value built by `enqueue_request` via `_HttpRequest.__init__`:
the key is resolved and the method upper-cased. -/
def mkHttpRequest (method url : Str) (body : Option Str)
    (headers : List (Str × Str)) (timeout : Int) (key : Option Str) (cb : κ) :
    HttpRequest κ :=
  { url := url, key := requestKey key url, timeout := timeout,
    method := pyUpper method, headers := headers, body := body, cb := cb }

/-- Embedding of `HttpClient.enqueue_request`: reject (and only log) when
the key is already pending, otherwise append the request to the queue tail
and mark the key pending. -/
def HttpClient.enqueue_request (c : HttpClient κ) (method url : Str)
    (body : Option Str) (headers : List (Str × Str)) (timeout : Int)
    (key : Option Str) (cb : κ) : Bool × HttpClient κ :=
  let request_key := requestKey key url
  if request_key ∈ c.pending_keys then
    (false, c)
  else
    (true,
      { c with queue := c.queue ++ [mkHttpRequest method url body headers timeout key cb],
               pending_keys := c.pending_keys ++ [request_key] })

/-- Embedding of `HttpClient.enqueue_get`. -/
def HttpClient.enqueue_get (c : HttpClient κ) (url : Str)
    (headers : List (Str × Str)) (timeout : Int) (key : Option Str) (cb : κ) :
    Bool × HttpClient κ :=
  c.enqueue_request (S "GET") url none headers timeout key cb

/-- Embedding of `HttpClient.enqueue_post`. -/
def HttpClient.enqueue_post (c : HttpClient κ) (url : Str) (body : Option Str)
    (headers : List (Str × Str)) (timeout : Int) (key : Option Str) (cb : κ) :
    Bool × HttpClient κ :=
  c.enqueue_request (S "POST") url body headers timeout key cb

/-- Gzip magic bytes `\x1f\x8b`. -/
def gzipMagic : Str := [Char.ofNat 0x1f, Char.ofNat 0x8b]

/-- UTF-8 byte-order mark `\xef\xbb\xbf`. -/
def bomBytes : Str := [Char.ofNat 0xef, Char.ofNat 0xbb, Char.ofNat 0xbf]

/-- Embedding of `_decode_body`: empty bytes decode to the empty string; a
declared or sniffed gzip body is decompressed through the external `uzlib`
collaborator (kept as-is when decompression fails, as the source's nested
`except` does); the final `utf-8-sig` lossy decode is the identity on the
byte-string embedding apart from stripping a leading byte-order mark. -/
def _decode_body (decompress : Str → Option Str) (data : Str)
    (headers : List (Str × Str)) : Str :=
  if data = [] then []
  else
    let encoding := pyLower ((dictGet headers (S "content-encoding")).getD [])
    let data :=
      if encoding = S "gzip" ∨ gzipMagic <+: data then
        match decompress data with
        | some out => out
        | none => data
      else data
    if bomBytes <+: data then data.drop 3 else data

/-- The `Connection: close` test `tick` performs on the request headers. -/
def connectionClose (req : HttpRequest κ) : Bool :=
  pyLower ((dictGet req.headers (S "Connection")).getD []) = S "close"

/-- Default headers `tick` installs before merging the caller's. -/
def default_headers : List (Str × Str) :=
  [(S "Accept-Encoding", S "identity"), (S "User-Agent", S "Pico")]

/-- Header dictionary sent on the wire: the caller's headers override the
defaults (lookup-equivalent embedding of `dict.update`). -/
def mergedHeaders (req : HttpRequest κ) : List (Str × Str) :=
  req.headers ++ default_headers.filter (fun d => (dictGet req.headers d.1).isNone)

/-- Observable outcome of one `tick`: nothing ran, or a given request's
`on_success` fired with `(text, body, status_code, headers)`, or its
`on_error` fired with the exception. -/
inductive TickEvent (κ : Type) where
  | idle
  | success (cb : κ) (text : Str) (body : Str) (status_code : Int)
      (resp_headers : List (Str × Str))
  | failure (cb : κ) (exc : Str)
deriving DecidableEq

/-- Embedding of `HttpClient.tick`: pop the head request (if any), manage
the session (fresh on `Connection: close`, lazily created otherwise,
force-closed on transport failure and after a `Connection: close`
request), run the transport synchronously, decode and deliver the
response to `on_success` regardless of status code, or the exception to
`on_error`, and always discard the pending key. -/
def HttpClient.tick (transport : HttpRequest κ → TransportResult)
    (decompress : Str → Option Str) (c : HttpClient κ) :
    TickEvent κ × HttpClient κ :=
  match c.queue with
  | [] => (TickEvent.idle, c)
  | req :: rest =>
    let close_requested := connectionClose req
    match transport { req with headers := mergedHeaders req } with
    | TransportResult.response content status resp_headers =>
      let text := _decode_body decompress content resp_headers
      (TickEvent.success req.cb text content status resp_headers,
        { queue := rest,
          pending_keys := c.pending_keys.erase req.key,
          session := !close_requested })
    | TransportResult.failure exc =>
      (TickEvent.failure req.cb exc,
        { queue := rest,
          pending_keys := c.pending_keys.erase req.key,
          session := false })

/-- One scheduler-visible operation on the client: an `enqueue_request`
call or one `tick` (whose transport behaviour that tick is part of the
operation). -/
inductive HttpOp (κ : Type) where
  | enq (method url : Str) (body : Option Str) (headers : List (Str × Str))
      (timeout : Int) (key : Option Str) (cb : κ)
  | tick (transport : HttpRequest κ → TransportResult)
      (decompress : Str → Option Str)

/-- Run a sequence of operations, returning the accepted requests (in
acceptance order), the executed requests (in execution order), and the
final client state. -/
def runOps : List (HttpOp κ) → HttpClient κ →
    List (HttpRequest κ) × List (HttpRequest κ) × HttpClient κ
  | [], c => ([], [], c)
  | HttpOp.enq m u b h t k cb :: ops, c =>
    let r := c.enqueue_request m u b h t k cb
    let rest := runOps ops r.2
    ((if r.1 then [mkHttpRequest m u b h t k cb] else []) ++ rest.1,
      rest.2.1, rest.2.2)
  | HttpOp.tick tr dec :: ops, c =>
    let r := HttpClient.tick tr dec c
    let rest := runOps ops r.2
    (rest.1, c.queue.take 1 ++ rest.2.1, rest.2.2)

/-! ## The Spotify client (claims C4 and C6)

`SpotifyClient` from src/pi_files/api/spotify_api.py.  The closures the
source enqueues are modelled as data: a request carries a `SpotifyCb` tag
naming which handler its completion runs, together with the caller's
`on_update`/`on_error` callbacks as opaque identifiers.  The continuation
list `_after_refresh` holds `Cont` records, the captured arguments of the
`_enqueue_now_playing` closure the source appends.  Invocations of
continuations and of the outer callbacks are recorded in ghost trace
fields (`invoked_conts`, `update_calls`, `error_calls`).  JSON parsing
(`_safe_json_load` plus the dictionary field extraction of the handlers,
performed by the external `json` module) is a parameter producing the
extracted payload fields, `none` standing for a raised parse error. -/

/-- Handler tag carried by a Spotify HTTP request. -/
inductive SpotifyCb where
  | token (on_error : Nat)
  | nowPlaying (on_update : Nat) (on_error : Nat)
deriving DecidableEq

/-- Captured arguments of one queued `after_refresh` continuation (a
`_enqueue_now_playing` call), plus a ghost identity `cid`. -/
structure Cont where
  cid : Nat
  on_update : Nat
  on_error : Nat
  timeout : Int
deriving DecidableEq

/-- Fields the token handler extracts from the token response JSON;
`access_token := none` models a missing key, `expires_in := none` a
missing key (defaulted to 3600 by the handler). -/
structure TokenPayload where
  access_token : Option Str
  expires_in : Option Int
deriving DecidableEq

/-- Fields `_apply_payload` extracts from the now-playing response JSON
(the nested dictionary walk and `_pick_image_url` selection happen in the
external JSON layer of the embedding). -/
structure NowPlayingPayload where
  is_playing : Bool
  track_name : Str
  track_id : Str
  artist_name : Str
  album_name : Str
  album_id : Str
  album_image_url : Str
deriving DecidableEq

/-- Embedding of the `SpotifyClient` state, together with ghost traces of
callback invocations. -/
structure SpotifyClient where
  client_id : Str
  client_secret : Str
  refresh_token : Str
  http : HttpClient SpotifyCb
  access_token : Option Str
  token_expires_at : Int
  refresh_inflight : Bool
  after_refresh : List Cont
  last_error : Option Str
  last_error_stage : Str
  is_playing : Bool
  track_name : Str
  artist_name : Str
  album_name : Str
  album_image_url : Str
  track_id : Str
  album_id : Str
  invoked_conts : List Nat
  update_calls : List Nat
  error_calls : List Nat
deriving DecidableEq

/-- Embedding of `SpotifyClient.__init__` (credentials are stripped). -/
def SpotifyClient.init (client_id client_secret refresh_token : Str) :
    SpotifyClient :=
  { client_id := pyStrip client_id, client_secret := pyStrip client_secret,
    refresh_token := pyStrip refresh_token, http := HttpClient.init SpotifyCb,
    access_token := none, token_expires_at := 0, refresh_inflight := false,
    after_refresh := [], last_error := none, last_error_stage := [],
    is_playing := false, track_name := [], artist_name := [], album_name := [],
    album_image_url := [], track_id := [], album_id := [],
    invoked_conts := [], update_calls := [], error_calls := [] }

/-- Embedding of `SpotifyClient.has_credentials`. -/
def SpotifyClient.has_credentials (s : SpotifyClient) : Bool :=
  s.client_id ≠ [] && s.client_secret ≠ [] && s.refresh_token ≠ []

/-- Embedding of `SpotifyClient._token_valid`: a nonempty cached token
that has not reached its monotonic expiry deadline. -/
def SpotifyClient._token_valid (s : SpotifyClient) (now : Int) : Bool :=
  match s.access_token with
  | none => false
  | some t => if t = [] then false else decide (now < s.token_expires_at)

/-- Embedding of `SpotifyClient._set_error`. -/
def SpotifyClient._set_error (s : SpotifyClient) (exc stage : Str) :
    SpotifyClient :=
  { s with last_error := some exc, last_error_stage := stage }

/-- Embedding of `SpotifyClient._clear_error`. -/
def SpotifyClient._clear_error (s : SpotifyClient) : SpotifyClient :=
  { s with last_error := none, last_error_stage := [] }

/-- Embedding of `SpotifyClient._clear_playback`. -/
def SpotifyClient._clear_playback (s : SpotifyClient) : SpotifyClient :=
  { s with
    is_playing := false
    track_name := []
    artist_name := []
    album_name := []
    album_image_url := []
    track_id := []
    album_id := [] }

/-- Ghost recording of an `on_error(exc)` invocation. -/
def SpotifyClient.fireError (s : SpotifyClient) (on_error : Nat) :
    SpotifyClient :=
  { s with error_calls := s.error_calls ++ [on_error] }

/-- Ghost recording of an `on_update()` invocation. -/
def SpotifyClient.fireUpdate (s : SpotifyClient) (on_update : Nat) :
    SpotifyClient :=
  { s with update_calls := s.update_calls ++ [on_update] }

/-- Embedding of `_apply_payload` over the extracted payload fields. -/
def SpotifyClient._apply_payload (s : SpotifyClient) (p : NowPlayingPayload) :
    SpotifyClient :=
  { s with
    is_playing := p.is_playing
    track_name := p.track_name
    track_id := p.track_id
    artist_name := p.artist_name
    album_name := p.album_name
    album_id := p.album_id
    album_image_url := p.album_image_url }

/-- The characters `_url_encode` passes through unescaped. -/
def urlSafeChars : Str :=
  S "ABCDEFGHIJKLMNOPQRSTUVWXYZabcdefghijklmnopqrstuvwxyz0123456789-_.~"

/-- Uppercase hexadecimal digits of `n`, at least two (`"%{:02X}"`). -/
def hexUpper2 (n : Nat) : Str :=
  let h := (Nat.toDigits 16 n).map Char.toUpper
  if h.length < 2 then '0' :: h else h

/-- Embedding of `_url_encode`: percent-encode everything outside the safe
set. -/
def _url_encode (text : Str) : Str :=
  text.foldr
    (fun ch acc =>
      (if ch ∈ urlSafeChars then [ch] else '%' :: hexUpper2 ch.toNat) ++ acc) []

/-- Standard base64 alphabet. -/
def base64Chars : Str :=
  S "ABCDEFGHIJKLMNOPQRSTUVWXYZabcdefghijklmnopqrstuvwxyz0123456789+/"

/-- Character of the base64 alphabet at index `n`. -/
def b64c (n : Nat) : Char := base64Chars.getD n 'A'

/-- Model of `binascii.b2a_base64(..).strip()`: standard base64 with `=`
padding and no trailing newline, over the byte values of the input. -/
def base64Encode : List Nat → Str
  | [] => []
  | [a] => [b64c (a / 4), b64c (a % 4 * 16), '=', '=']
  | [a, b] => [b64c (a / 4), b64c (a % 4 * 16 + b / 16), b64c (b % 16 * 4), '=']
  | a :: b :: c :: rest =>
    [b64c (a / 4), b64c (a % 4 * 16 + b / 16), b64c (b % 16 * 4 + c / 64),
      b64c (c % 64)] ++ base64Encode rest

/-- Embedding of `_basic_auth_header`. -/
def _basic_auth_header (client_id client_secret : Str) : Str :=
  S "Basic " ++ base64Encode ((client_id ++ ':' :: client_secret).map Char.toNat)

/-- The Spotify token endpoint. -/
def _TOKEN_URL : Str := S "https://accounts.spotify.com/api/token"

/-- The Spotify now-playing endpoint. -/
def _NOW_PLAYING_URL : Str := S "https://api.spotify.com/v1/me/player/currently-playing"

/-- Embedding of `SpotifyClient._enqueue_now_playing`: with no cached
token, report a token-stage error; otherwise enqueue the now-playing GET
with the bearer header under the fixed key `spotify_now_playing`. -/
def SpotifyClient._enqueue_now_playing (s : SpotifyClient)
    (on_update on_error : Nat) (timeout : Int) : Bool × SpotifyClient :=
  match s.access_token with
  | none =>
    (false,
      (s._set_error (S "Spotify access token missing") (S "token")).fireError on_error)
  | some tok =>
    if tok = [] then
      (false,
        (s._set_error (S "Spotify access token missing") (S "token")).fireError on_error)
    else
      let headers := [(S "Authorization", S "Bearer " ++ tok)]
      let r := s.http.enqueue_get _NOW_PLAYING_URL headers timeout
        (some (S "spotify_now_playing")) (SpotifyCb.nowPlaying on_update on_error)
      (r.1, { s with http := r.2 })

/-- Embedding of `SpotifyClient._request_token`: always queue the
continuation; while a refresh is in flight, do nothing else and report
success; otherwise mark the refresh in flight and enqueue the token POST
under the fixed key `spotify_token`, rolling the flag back if the enqueue
is rejected. -/
def SpotifyClient._request_token (s : SpotifyClient) (after_refresh : Option Cont)
    (on_error : Nat) (timeout : Int) : Bool × SpotifyClient :=
  let s :=
    match after_refresh with
    | some cont => { s with after_refresh := s.after_refresh ++ [cont] }
    | none => s
  if s.refresh_inflight then (true, s)
  else
    let s := { s with refresh_inflight := true }
    let body := S "grant_type=refresh_token&refresh_token=" ++ _url_encode s.refresh_token
    let headers := [(S "Authorization", _basic_auth_header s.client_id s.client_secret),
                    (S "Content-Type", S "application/x-www-form-urlencoded")]
    let r := s.http.enqueue_post _TOKEN_URL (some body) headers timeout
      (some (S "spotify_token")) (SpotifyCb.token on_error)
    let s := { s with http := r.2 }
    if r.1 then (true, s) else (false, { s with refresh_inflight := false })

/-- Embedding of `SpotifyClient.request_currently_playing`: missing
credentials are a config-stage error; an invalid token routes through
`_request_token` with the now-playing call queued as the continuation; a
valid token enqueues the now-playing request directly. -/
def SpotifyClient.request_currently_playing (s : SpotifyClient) (now : Int)
    (on_update on_error : Nat) (timeout : Int) (cid : Nat) :
    Bool × SpotifyClient :=
  if s.has_credentials then
    if s._token_valid now then s._enqueue_now_playing on_update on_error timeout
    else
      s._request_token
        (some { cid := cid, on_update := on_update, on_error := on_error,
                timeout := timeout })
        on_error timeout
  else
    (false,
      (s._set_error (S "Spotify credentials missing") (S "config")).fireError on_error)

/-- Run the queued `after_refresh` continuations in order (the source's
`for callback in callbacks` loop), recording each invocation. -/
def runConts : List Cont → SpotifyClient → SpotifyClient
  | [], s => s
  | cont :: rest, s =>
    let s := { s with invoked_conts := s.invoked_conts ++ [cont.cid] }
    let r := s._enqueue_now_playing cont.on_update cont.on_error cont.timeout
    runConts rest r.2

/-- Embedding of `_request_token`'s `_handle_success` closure: clear the
in-flight flag; an HTTP error status or an unparseable/token-less payload
is a token-stage error that leaves the queued continuations untouched;
otherwise cache the token, set the early-refresh deadline, and run every
queued continuation exactly once. -/
def SpotifyClient.token_handle_success (s : SpotifyClient)
    (parseToken : Str → Option TokenPayload) (now : Int) (on_error : Nat)
    (text : Str) (status : Int) : SpotifyClient :=
  let s := { s with refresh_inflight := false }
  if 400 ≤ status then
    (s._set_error (S "Spotify token error") (S "token")).fireError on_error
  else
    match parseToken text with
    | none =>
      (s._set_error (S "Spotify token parse failed") (S "token")).fireError on_error
    | some payload =>
      match payload.access_token with
      | none =>
        (s._set_error (S "Spotify token missing in response") (S "token")).fireError on_error
      | some tok =>
        if tok = [] then
          (s._set_error (S "Spotify token missing in response") (S "token")).fireError on_error
        else
          let expires_in :=
            match payload.expires_in with
            | none => 3600
            | some v => if v = 0 then 3600 else v
          let s :=
            { s with
              access_token := some tok
              token_expires_at := now + max 0 (expires_in - 60)
              last_error := none
              last_error_stage := [] }
          let callbacks := s.after_refresh
          let s := { s with after_refresh := [] }
          runConts callbacks s

/-- Embedding of `_request_token`'s `_handle_error` closure: clear the
in-flight flag, record a token-stage error, and drop the queued
continuations without invoking them. -/
def SpotifyClient.token_handle_error (s : SpotifyClient) (on_error : Nat)
    (exc : Str) : SpotifyClient :=
  let s := { s with refresh_inflight := false }
  let s := s._set_error exc (S "token")
  let s := { s with after_refresh := [] }
  s.fireError on_error

/-- Embedding of `_enqueue_now_playing`'s `_handle_success` closure:
204 clears playback, 401 resets the token deadline and reports a
token-stage error, other error statuses report a now-playing error, and a
parseable payload is applied. -/
def SpotifyClient.now_playing_handle_success (s : SpotifyClient)
    (parseNowPlaying : Str → Option NowPlayingPayload)
    (on_update on_error : Nat) (text : Str) (status : Int) : SpotifyClient :=
  if status = 204 then
    (s._clear_playback._clear_error).fireUpdate on_update
  else if status = 401 then
    (({ s with token_expires_at := 0 })._set_error
        (S "Spotify access token expired") (S "token")).fireError on_error
  else if 400 ≤ status then
    (s._set_error (S "Spotify API error") (S "now_playing")).fireError on_error
  else
    match parseNowPlaying text with
    | none => (s._set_error (S "Spotify payload parse failed") (S "parse")).fireError on_error
    | some payload => ((s._apply_payload payload)._clear_error).fireUpdate on_update

/-- Embedding of `_enqueue_now_playing`'s `_handle_error` closure. -/
def SpotifyClient.now_playing_handle_error (s : SpotifyClient) (on_error : Nat)
    (exc : Str) : SpotifyClient :=
  (s._set_error exc (S "request")).fireError on_error

/-- One scheduler step for the Spotify client: advance the shared HTTP
client by one `tick` and run the handler closure of whichever request
completed, exactly as the real tick invokes the enqueued callbacks. -/
def spotify_step (parseToken : Str → Option TokenPayload)
    (parseNowPlaying : Str → Option NowPlayingPayload) (now : Int)
    (transport : HttpRequest SpotifyCb → TransportResult)
    (decompress : Str → Option Str) (s : SpotifyClient) : SpotifyClient :=
  let r := HttpClient.tick transport decompress s.http
  let s := { s with http := r.2 }
  match r.1 with
  | TickEvent.idle => s
  | TickEvent.success cb text _body status _headers =>
    match cb with
    | SpotifyCb.token on_error =>
      s.token_handle_success parseToken now on_error text status
    | SpotifyCb.nowPlaying on_update on_error =>
      s.now_playing_handle_success parseNowPlaying on_update on_error text status
  | TickEvent.failure cb exc =>
    match cb with
    | SpotifyCb.token on_error => s.token_handle_error on_error exc
    | SpotifyCb.nowPlaying _ on_error => s.now_playing_handle_error on_error exc

/-- Concrete C4 scenario, step 1: a fresh client with credentials but no
token; one caller requests playback, so continuation 0 is queued and the
token-refresh POST is enqueued. -/
def spotifyC4Start : SpotifyClient :=
  ((SpotifyClient.init (S "id") (S "secret") (S "rtok")).request_currently_playing
    0 1 2 10 0).2

/-- Concrete C4 scenario, step 2: the token refresh completes with a
transport error. -/
def spotifyC4AfterFailure : SpotifyClient :=
  spotify_step (fun _ => none) (fun _ => none) 0
    (fun _ => TransportResult.failure (S "socket timeout")) (fun _ => none)
    spotifyC4Start

/-- Token-JSON oracle used by the C4 witness scenario. -/
def c4ParseToken : Str → Option TokenPayload := fun t =>
  if t = S "TOKJSON" then some { access_token := some (S "AT"), expires_in := some 3600 }
  else none

/-- The token request `spotifyC4Start` has queued, spelled out. -/
def spotifyC4TokenReq : HttpRequest SpotifyCb :=
  mkHttpRequest (S "POST") _TOKEN_URL
    (some (S "grant_type=refresh_token&refresh_token=rtok"))
    [(S "Authorization", _basic_auth_header (S "id") (S "secret")),
     (S "Content-Type", S "application/x-www-form-urlencoded")]
    10 (some (S "spotify_token")) (SpotifyCb.token 2)

/-- Concrete C6 scenario: the now-playing request queued by a client
holding a still-valid token. -/
def spotifyC6NowPlayingReq : HttpRequest SpotifyCb :=
  mkHttpRequest (S "GET") _NOW_PLAYING_URL none
    [(S "Authorization", S "Bearer OLD")] 10 (some (S "spotify_now_playing"))
    (SpotifyCb.nowPlaying 1 2)

/-- Concrete C6 scenario: client state while that request is pending. -/
def spotifyC6Start : SpotifyClient :=
  { SpotifyClient.init (S "id") (S "secret") (S "rtok") with
    access_token := some (S "OLD")
    token_expires_at := 100
    http :=
      { queue := [spotifyC6NowPlayingReq]
        pending_keys := [S "spotify_now_playing"]
        session := true } }

/-! ## Primary route selection (claim C8)

`ArrivingTrain` and `_pick_primary_route` from src/pi_files/api/muni_api.py.
The `counts` dictionary is embedded as an association list in insertion
order (Python dictionaries iterate in insertion order), and
`max(counts, key=counts.get)` as a left fold that replaces the best pair
only on a strictly greater count — so it returns the first key, in
insertion order, attaining the maximum count. -/

/-- Embedding of `ArrivingTrain` after `__init__` normalization (route and
destination are coalesced to strings there). -/
structure ArrivingTrain where
  route : Str
  destination : Str
  aimed_arrival_epoch : Option Int
  expected_arrival_epoch : Option Int
  at_stop : Bool
  occupancy_status : Option Str
deriving DecidableEq

/-- One `counts[route] = counts.get(route, 0) + 1` update on the
insertion-ordered association list. -/
def bumpCount : List (Str × Nat) → Str → List (Str × Nat)
  | [], r => [(r, 1)]
  | (k, n) :: rest, r =>
    if k = r then (k, n + 1) :: rest else (k, n) :: bumpCount rest r

/-- Python `max(iterable, key=...)`: left fold keeping the first element
whose key is strictly greater than the best so far. -/
def maxRun (best : Str × Nat) : List (Str × Nat) → Str × Nat
  | [] => best
  | p :: rest => maxRun (if best.2 < p.2 then p else best) rest

/-- Embedding of `_pick_primary_route`: count the stripped non-empty
routes and take `max(counts, key=counts.get)`, or the empty string when
no arrival has a route. -/
def _pick_primary_route (trains : List ArrivingTrain) : Str :=
  let counts := trains.foldl
    (fun counts train =>
      let route := pyStrip train.route
      if route = [] then counts else bumpCount counts route) []
  match counts with
  | [] => []
  | c :: rest => (maxRun c rest).1

/-- Spec side for C8: the stripped non-empty route names, in arrival
order. -/
def routeNames (trains : List ArrivingTrain) : List Str :=
  (trains.map (fun t => pyStrip t.route)).filter (· ≠ [])

/-- Spec side for C8: distinct elements in order of first appearance. -/
def distinctFirst (l : List Str) : List Str :=
  l.foldl (fun acc r => if r ∈ acc then acc else acc ++ [r]) []

/-- Spec side for C8, following the spec's words: the non-empty route
occurring most frequently among the arrivals, ties broken to the first
route (by iteration order over the arrivals) reaching that maximum count,
and the empty string when no arrival has a non-empty route. -/
def specPrimaryRoute (trains : List ArrivingTrain) : Str :=
  let routes := routeNames trains
  let m := ((distinctFirst routes).map (fun r => routes.count r)).foldr max 0
  ((distinctFirst routes).find? (fun r => routes.count r = m)).getD []

/-- Association list of first occurrences paired with their counts; the
shape `bumpCount` folds maintain. -/
def assocOf (l : List Str) : List (Str × Nat) :=
  (distinctFirst l).map (fun r => (r, l.count r))

/-- Greatest count appearing in an association list. -/
def maxVals (l : List (Str × Nat)) : Nat :=
  l.foldr (fun p m => max p.2 m) 0

/-! ## Theorems for claims C5, C9, C7, C10 -/

/-- C5: for every data source (transit, weather) with last server epoch `E`
captured at monotonic time `M`, `get_utc_epoch now` returns `E + (now - M)`
for every `now ≥ M` and returns `E` for every `now < M`; before any
successful response has been recorded (no epoch or no captured monotonic
value) it returns `None`. -/
theorem claim_C5_epoch_extrapolation :
    (∀ E M now : Int, M ≤ now →
      MuniStop.get_utc_epoch (some E) (some M) now = some (E + (now - M)) ∧
      WeatherClient.get_utc_epoch (some E) (some M) now = some (E + (now - M))) ∧
    (∀ E M now : Int, now < M →
      MuniStop.get_utc_epoch (some E) (some M) now = some E ∧
      WeatherClient.get_utc_epoch (some E) (some M) now = some E) ∧
    (∀ (e m : Option Int) (now : Int), e = none ∨ m = none →
      MuniStop.get_utc_epoch e m now = none ∧
      WeatherClient.get_utc_epoch e m now = none) := by
  refine ⟨?_, ?_, ?_⟩
  · intro E M now h
    constructor <;> simp [MuniStop.get_utc_epoch, WeatherClient.get_utc_epoch] <;> omega
  · intro E M now h
    constructor <;> simp [MuniStop.get_utc_epoch, WeatherClient.get_utc_epoch] <;> omega
  · intro e m now h
    rcases h with h | h <;> subst h
    · cases m <;> simp [MuniStop.get_utc_epoch, WeatherClient.get_utc_epoch]
    · cases e <;> simp [MuniStop.get_utc_epoch, WeatherClient.get_utc_epoch]

/-- Witness for C5 at concrete inputs. -/
theorem claim_C5_epoch_extrapolation_witness :
    MuniStop.get_utc_epoch (some 1000) (some 50) 60 = some 1010 ∧
    WeatherClient.get_utc_epoch (some 1000) (some 50) 40 = some 1000 ∧
    MuniStop.get_utc_epoch none (some 50) 60 = none :=
  ⟨((claim_C5_epoch_extrapolation.1 1000 50 60 (by decide)).1).trans (by decide),
   ((claim_C5_epoch_extrapolation.2.1 1000 50 40 (by decide)).2),
   (claim_C5_epoch_extrapolation.2.2 none (some 50) 60 (Or.inl rfl)).1⟩

/-- C9: converting a temperature from Fahrenheit to Celsius and back with
the widget's conversion function returns the original value for every `x`
in the range −40..120 °F.  Float arithmetic is embedded exactly (as ℚ), so
the round trip is exact rather than merely within rounding tolerance. -/
theorem claim_C9_temperature_round_trip (x : ℚ) (h1 : -40 ≤ x) (h2 : x ≤ 120) :
    _convert_temperature
      (_convert_temperature (some x) (some (S "fahrenheit")) (some (S "celsius")))
      (some (S "celsius")) (some (S "fahrenheit")) = some x := by
  have hf : _normalize_unit (some (S "fahrenheit")) = S "fahrenheit" := by decide
  have hc : _normalize_unit (some (S "celsius")) = S "celsius" := by decide
  have hinner : _convert_temperature (some x) (some (S "fahrenheit")) (some (S "celsius"))
      = some ((x - 32) * 5 / 9) := by
    simp only [_convert_temperature, hf, hc]
    rw [if_neg (by decide), if_pos (by decide)]
  rw [hinner]
  simp only [_convert_temperature, hf, hc]
  rw [if_neg (by decide), if_neg (by decide), if_pos (by decide)]
  congr 1
  field_simp

/-- Witness for C9 at 72 °F. -/
theorem claim_C9_temperature_round_trip_witness :
    _convert_temperature
      (_convert_temperature (some 72) (some (S "fahrenheit")) (some (S "celsius")))
      (some (S "celsius")) (some (S "fahrenheit")) = some 72 :=
  claim_C9_temperature_round_trip 72 (by norm_num) (by norm_num)

/-- C7: the cron matcher sends `*/15 * * * *` exactly to the tuples with
minute in {0, 15, 30, 45}; sends `0 9-17 * * 1-5` exactly to minute 0,
hours 9..17, Monday..Friday (Python weekdays 0..4); and a day-of-week
field of `7` matches the same times as `0` for every expression. -/
theorem claim_C7_cron_matcher :
    (∀ tm : TimeTuple,
      ((mkCronSchedule (some (S "*/15 * * * *"))).matches (some tm) = true ↔
        (tm.tm_min = 0 ∨ tm.tm_min = 15 ∨ tm.tm_min = 30 ∨ tm.tm_min = 45))) ∧
    (∀ tm : TimeTuple, 0 ≤ tm.tm_wday → tm.tm_wday < 7 →
      ((mkCronSchedule (some (S "0 9-17 * * 1-5"))).matches (some tm) = true ↔
        (tm.tm_min = 0 ∧ 9 ≤ tm.tm_hour ∧ tm.tm_hour ≤ 17 ∧ tm.tm_wday ≤ 4))) ∧
    (∀ (f0 f1 f2 f3 : Str) (tm : Option TimeTuple),
      (cronOfFields f0 f1 f2 f3 (S "7")).matches tm =
        (cronOfFields f0 f1 f2 f3 (S "0")).matches tm) := by
  refine ⟨?_, ?_, ?_⟩
  · intro tm
    have h1 : mkCronSchedule (some (S "*/15 * * * *")) =
        { minute := some {0, 15, 30, 45}, hour := none, dom := none,
          month := none, dow := none } := by decide
    rw [h1]
    simp [CronSchedule.matches, _match_field, Finset.mem_insert]
  · intro tm h0 h7
    have h1 : mkCronSchedule (some (S "0 9-17 * * 1-5")) =
        { minute := some {0}, hour := some {9, 10, 11, 12, 13, 14, 15, 16, 17},
          dom := none, month := none, dow := some {1, 2, 3, 4, 5} } := by decide
    rw [h1]
    simp only [CronSchedule.matches, _match_field, Bool.and_eq_true, Bool.and_true,
      Bool.true_and, decide_eq_true_eq, Finset.mem_insert, Finset.mem_singleton]
    omega
  · intro f0 f1 f2 f3 tm
    cases tm with
    | none => rfl
    | some t =>
      have h7 : _parse_field (S "7") 0 7 = some {7} := by decide
      have h0 : _parse_field (S "0") 0 7 = some {0} := by decide
      have hb : 0 ≤ (t.tm_wday + 1) % 7 ∧ (t.tm_wday + 1) % 7 < 7 := by
        constructor
        · exact Int.emod_nonneg _ (by norm_num)
        · exact Int.emod_lt_of_pos _ (by norm_num)
      simp only [CronSchedule.matches, cronOfFields, h7, h0]
      congr 1
      rw [if_pos (by decide)]
      simp only [_match_field]
      have : ((t.tm_wday + 1) % 7 ∈ (insert 0 {7} : Finset ℤ)) ↔
          ((t.tm_wday + 1) % 7 ∈ ({0} : Finset ℤ)) := by
        simp only [Finset.mem_insert, Finset.mem_singleton]
        omega
      exact decide_eq_decide.mpr this

/-- Witness for C7 at a concrete weekday-business-hours tuple. -/
theorem claim_C7_cron_matcher_witness :
    (mkCronSchedule (some (S "0 9-17 * * 1-5"))).matches
      (some { tm_min := 0, tm_hour := 10, tm_mday := 3, tm_mon := 6, tm_wday := 2 }) = true :=
  (claim_C7_cron_matcher.2.1
      { tm_min := 0, tm_hour := 10, tm_mday := 3, tm_mon := 6, tm_wday := 2 }
      (by decide) (by decide)).mpr (by refine ⟨rfl, by norm_num, by norm_num, by norm_num⟩)

/-- C10: constructing a `CronSchedule` is total (the embedding is a plain
function), and whenever the expression — including `None` and the empty
string — does not split into exactly five whitespace-separated fields, the
schedule degrades to the wildcard `* * * * *` and matches every tuple. -/
theorem claim_C10_bad_cron_wildcard (expr : Option Str)
    (h : exprFieldCount expr ≠ 5) (tm : TimeTuple) :
    (mkCronSchedule expr).matches (some tm) = true := by
  have hWild : cronOfFields (S "*") (S "*") (S "*") (S "*") (S "*") =
      { minute := none, hour := none, dom := none, month := none, dow := none } := by
    decide
  have hall : ∀ t : TimeTuple,
      (CronSchedule.mk none none none none none).matches (some t) = true := by
    intro t; rfl
  cases expr with
  | none =>
    have : mkCronSchedule none =
        { minute := none, hour := none, dom := none, month := none, dow := none } := by decide
    rw [this]; exact hall tm
  | some s =>
    by_cases hs : s = []
    · subst hs
      have : mkCronSchedule (some []) =
          { minute := none, hour := none, dom := none, month := none, dow := none } := by decide
      rw [this]; exact hall tm
    · have hlen : (pySplitWS (pyStrip s)).length ≠ 5 := h
      rcases hfields : pySplitWS (pyStrip s) with _ | ⟨f0, _ | ⟨f1, _ | ⟨f2, _ | ⟨f3, _ | ⟨f4, rest⟩⟩⟩⟩⟩
      · simp only [mkCronSchedule, if_neg hs, hfields]; rw [hWild]; exact hall tm
      · simp only [mkCronSchedule, if_neg hs, hfields]; rw [hWild]; exact hall tm
      · simp only [mkCronSchedule, if_neg hs, hfields]; rw [hWild]; exact hall tm
      · simp only [mkCronSchedule, if_neg hs, hfields]; rw [hWild]; exact hall tm
      · simp only [mkCronSchedule, if_neg hs, hfields]; rw [hWild]; exact hall tm
      · cases rest with
        | nil => exact absurd (by simp [hfields]) hlen
        | cons r rs =>
          simp only [mkCronSchedule, if_neg hs, hfields]; rw [hWild]; exact hall tm

/-- Witness for C10: a three-field expression matches an arbitrary tuple. -/
theorem claim_C10_bad_cron_wildcard_witness :
    (mkCronSchedule (some (S "every day noonish"))).matches
      (some { tm_min := 30, tm_hour := 12, tm_mday := 1, tm_mon := 6, tm_wday := 2 }) = true :=
  claim_C10_bad_cron_wildcard (some (S "every day noonish")) (by decide)
    { tm_min := 30, tm_hour := 12, tm_mday := 1, tm_mon := 6, tm_wday := 2 }

/-! ## Theorems for claims C1, C2, C3 -/

/-- C1: an `enqueue_request` whose resolved key (the explicit key, or the
URL when the key is omitted or empty) is already pending returns `false`
and leaves the queue and pending set unchanged; one with a fresh key
appends the request to the tail of the queue, marks the key pending and
returns `true`; no enqueue ever unmarks a pending key (so duplicates keep
being rejected), and the key is unmarked exactly when a `tick` executes
that request. -/
theorem claim_C1_enqueue_dedup (κ : Type) (c : HttpClient κ)
    (method url : Str) (body : Option Str) (headers : List (Str × Str))
    (timeout : Int) (key : Option Str) (cb : κ) :
    (requestKey key url ∈ c.pending_keys →
      c.enqueue_request method url body headers timeout key cb = (false, c)) ∧
    (requestKey key url ∉ c.pending_keys →
      c.enqueue_request method url body headers timeout key cb =
        (true, { c with
          queue := c.queue ++ [mkHttpRequest method url body headers timeout key cb],
          pending_keys := c.pending_keys ++ [requestKey key url] })) ∧
    (∀ k', k' ∈ c.pending_keys →
      k' ∈ ((c.enqueue_request method url body headers timeout key cb).2).pending_keys) ∧
    (∀ (transport : HttpRequest κ → TransportResult) (decompress : Str → Option Str)
        (req : HttpRequest κ) (rest : List (HttpRequest κ)), c.queue = req :: rest →
      ((HttpClient.tick transport decompress c).2).pending_keys =
        c.pending_keys.erase req.key) := by
  refine ⟨?_, ?_, ?_, ?_⟩
  · intro h
    simp [HttpClient.enqueue_request, h]
  · intro h
    simp [HttpClient.enqueue_request, h]
  · intro k' hk'
    by_cases h : requestKey key url ∈ c.pending_keys <;>
      simp [HttpClient.enqueue_request, h, hk']
  · intro transport decompress req rest hq
    cases htr : transport { req with headers := mergedHeaders req } <;>
      simp [HttpClient.tick, hq, htr]

/-- Witness for C1: a duplicate key is rejected without side effects. -/
theorem claim_C1_enqueue_dedup_witness :
    HttpClient.enqueue_request (κ := Nat)
      { queue := [], pending_keys := [S "k1"], session := false }
      (S "GET") (S "http:u") none [] 10 (some (S "k1")) 0 =
      (false, { queue := [], pending_keys := [S "k1"], session := false }) :=
  (claim_C1_enqueue_dedup Nat
      { queue := [], pending_keys := [S "k1"], session := false }
      (S "GET") (S "http:u") none [] 10 (some (S "k1")) 0).1 (by decide)

/-- Helper invariant: over any operation sequence, the requests already
queued followed by the ones accepted later equal the executed requests
followed by the ones still queued — execution is strict FIFO. -/
theorem runOps_queue_eq (κ : Type) (ops : List (HttpOp κ)) :
    ∀ c : HttpClient κ,
      c.queue ++ (runOps ops c).1 =
        (runOps ops c).2.1 ++ (runOps ops c).2.2.queue := by
  induction ops with
  | nil => intro c; simp [runOps]
  | cons op ops ih =>
    intro c
    cases op with
    | enq m u b h t k cb =>
      by_cases hp : requestKey k u ∈ c.pending_keys
      · simpa [runOps, HttpClient.enqueue_request, hp] using ih c
      · have := ih { c with
          queue := c.queue ++ [mkHttpRequest m u b h t k cb],
          pending_keys := c.pending_keys ++ [requestKey k u] }
        simp only [List.append_assoc] at this
        simpa [runOps, HttpClient.enqueue_request, hp] using this
    | tick tr dec =>
      cases hq : c.queue with
      | nil =>
        simpa [runOps, HttpClient.tick, hq] using ih c
      | cons req rest =>
        cases htr : tr { req with headers := mergedHeaders req }
        · simpa [runOps, HttpClient.tick, hq, htr] using
            ih { queue := rest, pending_keys := c.pending_keys.erase req.key,
                 session := !connectionClose req }
        · simpa [runOps, HttpClient.tick, hq, htr] using
            ih { queue := rest, pending_keys := c.pending_keys.erase req.key,
                 session := false }

/-- C2: starting from a fresh client, for every operation sequence the
accepted requests equal the executed requests followed by the requests
still queued — so successive ticks execute accepted requests in exactly
enqueue order, never reordering, skipping or re-executing one; each tick
executes at most the single head request, and a tick on an empty queue
executes nothing and changes nothing. -/
theorem claim_C2_fifo_order (κ : Type) :
    (∀ ops : List (HttpOp κ),
      (runOps ops (HttpClient.init κ)).1 =
        (runOps ops (HttpClient.init κ)).2.1 ++
          (runOps ops (HttpClient.init κ)).2.2.queue) ∧
    (∀ (transport : HttpRequest κ → TransportResult)
        (decompress : Str → Option Str) (ops : List (HttpOp κ)) (c : HttpClient κ),
      (runOps (HttpOp.tick transport decompress :: ops) c).2.1 =
        c.queue.take 1 ++
          (runOps ops (HttpClient.tick transport decompress c).2).2.1) ∧
    (∀ (transport : HttpRequest κ → TransportResult)
        (decompress : Str → Option Str) (c : HttpClient κ), c.queue = [] →
      HttpClient.tick transport decompress c = (TickEvent.idle, c)) ∧
    (∀ (transport : HttpRequest κ → TransportResult)
        (decompress : Str → Option Str) (c : HttpClient κ) req rest,
      c.queue = req :: rest →
      ((HttpClient.tick transport decompress c).2).queue = rest) := by
  refine ⟨?_, ?_, ?_, ?_⟩
  · intro ops
    have := runOps_queue_eq κ ops (HttpClient.init κ)
    simpa [HttpClient.init] using this
  · intro transport decompress ops c
    simp [runOps]
  · intro transport decompress c hq
    simp [HttpClient.tick, hq]
  · intro transport decompress c req rest hq
    cases htr : transport { req with headers := mergedHeaders req } <;>
      simp [HttpClient.tick, hq, htr]

/-- Witness for C2: a tick on an empty fresh client is idle. -/
theorem claim_C2_fifo_order_witness :
    HttpClient.tick (fun _ => TransportResult.failure (S "err"))
      (fun _ => none) (HttpClient.init Nat) = (TickEvent.idle, HttpClient.init Nat) :=
  (claim_C2_fifo_order Nat).2.2.1 (fun _ => TransportResult.failure (S "err"))
    (fun _ => none) (HttpClient.init Nat) rfl

/-- C3: when the transport returns a response, `tick` always invokes the
request's `on_success` with the decoded text, the raw body, the status
code and the response headers — for every status code, 4xx/5xx and zero
included — and `on_error` is invoked exactly when the transport raises, in
which case the session is force-closed (`session = false`) so the next
executed request creates a fresh one. -/
theorem claim_C3_callback_routing (κ : Type)
    (transport : HttpRequest κ → TransportResult) (decompress : Str → Option Str)
    (c : HttpClient κ) (req : HttpRequest κ) (rest : List (HttpRequest κ))
    (hq : c.queue = req :: rest) :
    (∀ content status resp_headers,
      transport { req with headers := mergedHeaders req } =
          TransportResult.response content status resp_headers →
      HttpClient.tick transport decompress c =
        (TickEvent.success req.cb (_decode_body decompress content resp_headers)
            content status resp_headers,
          { queue := rest, pending_keys := c.pending_keys.erase req.key,
            session := !connectionClose req })) ∧
    (∀ exc,
      transport { req with headers := mergedHeaders req } =
          TransportResult.failure exc →
      HttpClient.tick transport decompress c =
        (TickEvent.failure req.cb exc,
          { queue := rest, pending_keys := c.pending_keys.erase req.key,
            session := false })) := by
  constructor
  · intro content status resp_headers htr
    simp [HttpClient.tick, hq, htr]
  · intro exc htr
    simp [HttpClient.tick, hq, htr]

/-- Witness for C3: a 500-status response still fires `on_success`, and a
transport failure fires `on_error` and closes the session. -/
theorem claim_C3_callback_routing_witness :
    HttpClient.tick (κ := Nat) (fun _ => TransportResult.response (S "boom") 500 [])
      (fun _ => none)
      { queue := [mkHttpRequest (S "GET") (S "http:u") none [] 10 none 7],
        pending_keys := [S "http:u"], session := true } =
      (TickEvent.success 7 (S "boom") (S "boom") 500 [],
        { queue := [], pending_keys := [], session := true }) := by
  have h := (claim_C3_callback_routing Nat
      (fun _ => TransportResult.response (S "boom") 500 [])
      (fun _ => none)
      { queue := [mkHttpRequest (S "GET") (S "http:u") none [] 10 none 7],
        pending_keys := [S "http:u"], session := true }
      (mkHttpRequest (S "GET") (S "http:u") none [] 10 none 7) [] rfl).1
      (S "boom") 500 [] rfl
  rw [h]
  rfl

/-! ## Theorems for claims C4 and C6 -/

/-- Helper: `_enqueue_now_playing` never touches the ghost invocation
trace, the continuation list, the in-flight flag, the cached token, its
expiry, or the credentials. -/
theorem enqueue_now_playing_preserves (s : SpotifyClient) (a b : Nat) (t : Int) :
    (s._enqueue_now_playing a b t).2.invoked_conts = s.invoked_conts ∧
    (s._enqueue_now_playing a b t).2.after_refresh = s.after_refresh ∧
    (s._enqueue_now_playing a b t).2.refresh_inflight = s.refresh_inflight ∧
    (s._enqueue_now_playing a b t).2.access_token = s.access_token := by
  cases h : s.access_token with
  | none =>
    simp [SpotifyClient._enqueue_now_playing, h, SpotifyClient._set_error,
      SpotifyClient.fireError]
  | some tok =>
    by_cases ht : tok = [] <;>
      simp [SpotifyClient._enqueue_now_playing, h, ht, SpotifyClient._set_error,
        SpotifyClient.fireError, HttpClient.enqueue_get]

/-- Helper: running the continuation list appends exactly one invocation
per queued continuation, in order, and preserves the continuation list,
the in-flight flag and the cached token. -/
theorem runConts_ghost (conts : List Cont) : ∀ s : SpotifyClient,
    (runConts conts s).invoked_conts = s.invoked_conts ++ conts.map Cont.cid ∧
    (runConts conts s).after_refresh = s.after_refresh ∧
    (runConts conts s).refresh_inflight = s.refresh_inflight ∧
    (runConts conts s).access_token = s.access_token := by
  induction conts with
  | nil => intro s; simp [runConts]
  | cons cont rest ih =>
    intro s
    have h1 := enqueue_now_playing_preserves
      { s with invoked_conts := s.invoked_conts ++ [cont.cid] }
      cont.on_update cont.on_error cont.timeout
    have h2 := ih (({ s with invoked_conts := s.invoked_conts ++ [cont.cid]
      })._enqueue_now_playing cont.on_update cont.on_error cont.timeout).2
    refine ⟨?_, ?_, ?_, ?_⟩ <;>
      simp [runConts, h2.1, h2.2.1, h2.2.2.1, h2.2.2.2, h1.1, h1.2.1, h1.2.2.1, h1.2.2.2]

/-- C4 (amended): token-refresh coalescing.  While a refresh is in
flight, a further `_request_token` call only appends its continuation —
no second refresh POST is enqueued — and reports success.  When the
refresh completes *successfully* (parseable payload with a nonempty
token), every queued continuation is invoked exactly once, in order, and
the list is cleared.  When the refresh completes in a *transport error*,
however, the queued continuations are discarded without being invoked
(only the caller `on_error` of the refresh fires) — this is where the
original claim fails.  When the refresh completes with an *HTTP error
status* (≥ 400), the handler returns before touching the continuation
list, so the queued continuations stay queued, uninvoked, for a later
refresh. -/
theorem claim_C4_token_refresh_coalescing (s : SpotifyClient) :
    (∀ (cont : Cont) (on_error : Nat) (timeout : Int),
      s.refresh_inflight = true →
      s._request_token (some cont) on_error timeout =
        (true, { s with after_refresh := s.after_refresh ++ [cont] })) ∧
    (∀ (parseToken : Str → Option TokenPayload)
        (parseNowPlaying : Str → Option NowPlayingPayload) (now : Int)
        (transport : HttpRequest SpotifyCb → TransportResult)
        (decompress : Str → Option Str) (req : HttpRequest SpotifyCb)
        (rest : List (HttpRequest SpotifyCb)) (on_error : Nat) (content : Str)
        (status : Int) (resp_headers : List (Str × Str))
        (payload : TokenPayload) (tok : Str),
      s.http.queue = req :: rest →
      req.cb = SpotifyCb.token on_error →
      transport { req with headers := mergedHeaders req } =
        TransportResult.response content status resp_headers →
      status < 400 →
      parseToken (_decode_body decompress content resp_headers) = some payload →
      payload.access_token = some tok →
      tok ≠ [] →
      (spotify_step parseToken parseNowPlaying now transport decompress s).invoked_conts =
          s.invoked_conts ++ s.after_refresh.map Cont.cid ∧
      (spotify_step parseToken parseNowPlaying now transport decompress s).after_refresh = [] ∧
      (spotify_step parseToken parseNowPlaying now transport decompress s).refresh_inflight = false ∧
      (spotify_step parseToken parseNowPlaying now transport decompress s).access_token = some tok) ∧
    (∀ (parseToken : Str → Option TokenPayload)
        (parseNowPlaying : Str → Option NowPlayingPayload) (now : Int)
        (transport : HttpRequest SpotifyCb → TransportResult)
        (decompress : Str → Option Str) (req : HttpRequest SpotifyCb)
        (rest : List (HttpRequest SpotifyCb)) (on_error : Nat) (exc : Str),
      s.http.queue = req :: rest →
      req.cb = SpotifyCb.token on_error →
      transport { req with headers := mergedHeaders req } =
        TransportResult.failure exc →
      (spotify_step parseToken parseNowPlaying now transport decompress s).invoked_conts =
          s.invoked_conts ∧
      (spotify_step parseToken parseNowPlaying now transport decompress s).after_refresh = [] ∧
      (spotify_step parseToken parseNowPlaying now transport decompress s).refresh_inflight = false ∧
      (spotify_step parseToken parseNowPlaying now transport decompress s).error_calls =
          s.error_calls ++ [on_error]) ∧
    (∀ (parseToken : Str → Option TokenPayload)
        (parseNowPlaying : Str → Option NowPlayingPayload) (now : Int)
        (transport : HttpRequest SpotifyCb → TransportResult)
        (decompress : Str → Option Str) (req : HttpRequest SpotifyCb)
        (rest : List (HttpRequest SpotifyCb)) (on_error : Nat) (content : Str)
        (status : Int) (resp_headers : List (Str × Str)),
      s.http.queue = req :: rest →
      req.cb = SpotifyCb.token on_error →
      transport { req with headers := mergedHeaders req } =
        TransportResult.response content status resp_headers →
      400 ≤ status →
      (spotify_step parseToken parseNowPlaying now transport decompress s).invoked_conts =
          s.invoked_conts ∧
      (spotify_step parseToken parseNowPlaying now transport decompress s).after_refresh =
          s.after_refresh ∧
      (spotify_step parseToken parseNowPlaying now transport decompress s).refresh_inflight =
          false ∧
      (spotify_step parseToken parseNowPlaying now transport decompress s).error_calls =
          s.error_calls ++ [on_error]) := by
  refine ⟨?_, ?_, ?_, ?_⟩
  · intro cont on_error timeout hinf
    simp [SpotifyClient._request_token, hinf]
  · intro pT pN now tr dec req rest onE content status hdrs payload tok
      hq hcb htr hst hp ha htok
    have hstep : spotify_step pT pN now tr dec s =
        SpotifyClient.token_handle_success
          { s with
            http :=
              { queue := rest
                pending_keys := s.http.pending_keys.erase req.key
                session := !connectionClose req } }
          pT now onE (_decode_body dec content hdrs) status := by
      rw [hcb] at htr
      simp [spotify_step, HttpClient.tick, hq, htr, hcb]
    rw [hstep]
    simp only [SpotifyClient.token_handle_success]
    rw [if_neg (by omega)]
    simp only [hp, ha]
    rw [if_neg htok]
    have hg := runConts_ghost s.after_refresh
    refine ⟨?_, ?_, ?_, ?_⟩ <;> simp [hg]
  · intro pT pN now tr dec req rest onE exc hq hcb htr
    have hstep : spotify_step pT pN now tr dec s =
        SpotifyClient.token_handle_error
          { s with
            http :=
              { queue := rest
                pending_keys := s.http.pending_keys.erase req.key
                session := false } }
          onE exc := by
      rw [hcb] at htr
      simp [spotify_step, HttpClient.tick, hq, htr, hcb]
    rw [hstep]
    simp [SpotifyClient.token_handle_error, SpotifyClient._set_error,
      SpotifyClient.fireError]
  · intro pT pN now tr dec req rest onE content status hdrs hq hcb htr hst
    have hstep : spotify_step pT pN now tr dec s =
        SpotifyClient.token_handle_success
          { s with
            http :=
              { queue := rest
                pending_keys := s.http.pending_keys.erase req.key
                session := !connectionClose req } }
          pT now onE (_decode_body dec content hdrs) status := by
      rw [hcb] at htr
      simp [spotify_step, HttpClient.tick, hq, htr, hcb]
    rw [hstep]
    simp only [SpotifyClient.token_handle_success]
    rw [if_pos hst]
    simp [SpotifyClient._set_error, SpotifyClient.fireError]

/-- Witness for the amended C4: in the concrete success scenario the one
queued continuation (id 0) is invoked exactly once and the list is
cleared, while a 500-status refresh completion leaves it queued and
uninvoked. -/
theorem claim_C4_token_refresh_coalescing_witness :
    (spotify_step c4ParseToken (fun _ => none) 0
        (fun _ => TransportResult.response (S "TOKJSON") 200 []) (fun _ => none)
        spotifyC4Start).invoked_conts = [0] ∧
    (spotify_step c4ParseToken (fun _ => none) 0
        (fun _ => TransportResult.response (S "TOKJSON") 200 []) (fun _ => none)
        spotifyC4Start).after_refresh = [] ∧
    (spotify_step c4ParseToken (fun _ => none) 0
        (fun _ => TransportResult.response (S "err") 500 []) (fun _ => none)
        spotifyC4Start).after_refresh.map Cont.cid = [0] ∧
    (spotify_step c4ParseToken (fun _ => none) 0
        (fun _ => TransportResult.response (S "err") 500 []) (fun _ => none)
        spotifyC4Start).invoked_conts = [] := by
  have h := (claim_C4_token_refresh_coalescing spotifyC4Start).2.1 c4ParseToken
    (fun _ => none) 0
    (fun _ => TransportResult.response (S "TOKJSON") 200 []) (fun _ => none)
    spotifyC4TokenReq [] 2 (S "TOKJSON") 200 []
    { access_token := some (S "AT"), expires_in := some 3600 } (S "AT")
    rfl rfl rfl (by norm_num) rfl rfl (by decide)
  have h2 := (claim_C4_token_refresh_coalescing spotifyC4Start).2.2.2 c4ParseToken
    (fun _ => none) 0
    (fun _ => TransportResult.response (S "err") 500 []) (fun _ => none)
    spotifyC4TokenReq [] 2 (S "err") 500 []
    rfl rfl rfl (by norm_num)
  refine ⟨h.1.trans rfl, h.2.1, ?_, h2.1.trans rfl⟩
  rw [h2.2.1]
  rfl

/-- Counterexample to C4 as stated: in the concrete scenario the caller's
continuation (id 0) is queued while the refresh is in flight, the refresh
then completes in error, and the continuation is never invoked — the
ghost invocation trace stays empty — while the continuation list is
cleared, so it cannot fire later either.  This refutes "every queued
continuation is invoked exactly once when the refresh completes, whether
the refresh completes in success or in error" at this input. -/
theorem claim_C4_counterexample :
    spotifyC4Start.after_refresh.map Cont.cid = [0] ∧
    spotifyC4Start.refresh_inflight = true ∧
    spotifyC4AfterFailure.refresh_inflight = false ∧
    spotifyC4AfterFailure.last_error_stage = S "token" ∧
    spotifyC4AfterFailure.invoked_conts = [] ∧
    spotifyC4AfterFailure.after_refresh = [] :=
  ⟨rfl, rfl, rfl, rfl, rfl, rfl⟩

/-- Helper: once the expiry deadline is 0, the cached token is invalid at
every non-negative monotonic time. -/
theorem token_valid_zero (x : SpotifyClient) (h0 : x.token_expires_at = 0)
    (now2 : Int) (hn2 : 0 ≤ now2) : x._token_valid now2 = false := by
  cases hat : x.access_token with
  | none => simp [SpotifyClient._token_valid, hat]
  | some t =>
    by_cases ht : t = [] <;> simp [SpotifyClient._token_valid, hat, ht, h0] <;> omega

/-- Helper: a `request_currently_playing` call on a client with
credentials, no refresh in flight, an invalid token and no pending
`spotify_token` key enqueues exactly the token-refresh POST and defers the
playback request to the continuation list. -/
theorem request_after_invalid (x : SpotifyClient) (now2 : Int)
    (hcredx : x.has_credentials = true) (hinfx : x.refresh_inflight = false)
    (hvalidx : x._token_valid now2 = false)
    (hpendx : S "spotify_token" ∉ x.http.pending_keys)
    (onU onE : Nat) (t2 : Int) (cid2 : Nat) :
    (x.request_currently_playing now2 onU onE t2 cid2).1 = true ∧
    (x.request_currently_playing now2 onU onE t2 cid2).2.http.queue.map HttpRequest.key =
      x.http.queue.map HttpRequest.key ++ [S "spotify_token"] ∧
    (x.request_currently_playing now2 onU onE t2 cid2).2.after_refresh =
      x.after_refresh ++
        [{ cid := cid2, on_update := onU, on_error := onE, timeout := t2 }] ∧
    (x.request_currently_playing now2 onU onE t2 cid2).2.refresh_inflight = true := by
  have hrk : requestKey (some (S "spotify_token")) _TOKEN_URL = S "spotify_token" := rfl
  have h1 : x.request_currently_playing now2 onU onE t2 cid2 =
      x._request_token
        (some { cid := cid2, on_update := onU, on_error := onE, timeout := t2 })
        onE t2 := by
    simp [SpotifyClient.request_currently_playing, hcredx, hvalidx]
  rw [h1]
  simp only [SpotifyClient._request_token]
  rw [if_neg (by simp [hinfx])]
  simp only [HttpClient.enqueue_post, HttpClient.enqueue_request, hrk]
  rw [if_neg hpendx]
  simp [mkHttpRequest, hrk]

/-- C6: a now-playing completion with HTTP status 401 resets the token
expiry deadline to 0 (so the cached token is no longer valid at any
non-negative monotonic time) and records a token-stage error; the next
`request_currently_playing` call then enqueues the token-refresh POST —
the queue gains exactly the `spotify_token` request, not the playback
request, which is deferred to the continuation list. -/
theorem claim_C6_401_invalidates_token
    (parseToken : Str → Option TokenPayload)
    (parseNowPlaying : Str → Option NowPlayingPayload) (now : Int)
    (transport : HttpRequest SpotifyCb → TransportResult)
    (decompress : Str → Option Str) (s : SpotifyClient)
    (req : HttpRequest SpotifyCb) (rest : List (HttpRequest SpotifyCb))
    (on_update on_error : Nat) (content : Str)
    (resp_headers : List (Str × Str))
    (hq : s.http.queue = req :: rest)
    (hcb : req.cb = SpotifyCb.nowPlaying on_update on_error)
    (htr : transport { req with headers := mergedHeaders req } =
      TransportResult.response content 401 resp_headers)
    (hcred : s.has_credentials = true) (hinf : s.refresh_inflight = false)
    (hpend : S "spotify_token" ∉ s.http.pending_keys)
    (now2 : Int) (hn2 : 0 ≤ now2) (on_update2 on_error2 : Nat)
    (timeout2 : Int) (cid2 : Nat) :
    (spotify_step parseToken parseNowPlaying now transport decompress s).token_expires_at = 0 ∧
    (spotify_step parseToken parseNowPlaying now transport decompress s).last_error_stage =
      S "token" ∧
    (spotify_step parseToken parseNowPlaying now transport decompress s)._token_valid now2 =
      false ∧
    ((spotify_step parseToken parseNowPlaying now transport decompress
        s).request_currently_playing now2 on_update2 on_error2 timeout2 cid2).1 = true ∧
    (((spotify_step parseToken parseNowPlaying now transport decompress
        s).request_currently_playing now2 on_update2 on_error2 timeout2
        cid2).2.http.queue.map HttpRequest.key =
      (spotify_step parseToken parseNowPlaying now transport decompress
        s).http.queue.map HttpRequest.key ++ [S "spotify_token"]) ∧
    (((spotify_step parseToken parseNowPlaying now transport decompress
        s).request_currently_playing now2 on_update2 on_error2 timeout2
        cid2).2.after_refresh =
      (spotify_step parseToken parseNowPlaying now transport decompress s).after_refresh ++
        [{ cid := cid2, on_update := on_update2, on_error := on_error2,
           timeout := timeout2 }]) ∧
    ((spotify_step parseToken parseNowPlaying now transport decompress
        s).request_currently_playing now2 on_update2 on_error2 timeout2
        cid2).2.refresh_inflight = true := by
  have hstep : spotify_step parseToken parseNowPlaying now transport decompress s =
      ((({ s with
            http :=
              { queue := rest
                pending_keys := s.http.pending_keys.erase req.key
                session := !connectionClose req }
            token_expires_at := 0 } : SpotifyClient))._set_error
        (S "Spotify access token expired") (S "token")).fireError on_error := by
    rw [hcb] at htr
    simp only [spotify_step, HttpClient.tick, hq, htr, hcb]
    simp only [SpotifyClient.now_playing_handle_success]
    rw [if_neg (by decide), if_pos trivial]
  rw [hstep]
  have hp2 : S "spotify_token" ∉ s.http.pending_keys.erase req.key :=
    fun hmem => hpend (List.mem_of_mem_erase hmem)
  refine ⟨by simp [SpotifyClient._set_error, SpotifyClient.fireError],
    by simp [SpotifyClient._set_error, SpotifyClient.fireError], ?_, ?_⟩
  · exact token_valid_zero _
      (by simp [SpotifyClient._set_error, SpotifyClient.fireError]) now2 hn2
  · refine request_after_invalid _ now2 ?_ ?_ ?_ ?_ on_update2 on_error2 timeout2 cid2
    · simp only [SpotifyClient.has_credentials, SpotifyClient._set_error,
        SpotifyClient.fireError] at hcred ⊢
      simpa using hcred
    · simp [SpotifyClient._set_error, SpotifyClient.fireError, hinf]
    · exact token_valid_zero _
        (by simp [SpotifyClient._set_error, SpotifyClient.fireError]) now2 hn2
    · simpa [SpotifyClient._set_error, SpotifyClient.fireError] using hp2

/-- Witness for C6: in the concrete scenario the 401 response zeroes the
expiry deadline, records a token-stage error, and the next call enqueues
exactly the `spotify_token` request with the playback call deferred as
continuation 9. -/
theorem claim_C6_401_invalidates_token_witness :
    (spotify_step (fun _ => none) (fun _ => none) 0
        (fun _ => TransportResult.response (S "err401") 401 []) (fun _ => none)
        spotifyC6Start).token_expires_at = 0 ∧
    (spotify_step (fun _ => none) (fun _ => none) 0
        (fun _ => TransportResult.response (S "err401") 401 []) (fun _ => none)
        spotifyC6Start).last_error_stage = S "token" ∧
    ((spotify_step (fun _ => none) (fun _ => none) 0
        (fun _ => TransportResult.response (S "err401") 401 []) (fun _ => none)
        spotifyC6Start).request_currently_playing 5 3 4 10 9).2.http.queue.map
      HttpRequest.key = [S "spotify_token"] ∧
    ((spotify_step (fun _ => none) (fun _ => none) 0
        (fun _ => TransportResult.response (S "err401") 401 []) (fun _ => none)
        spotifyC6Start).request_currently_playing 5 3 4 10 9).2.after_refresh.map
      Cont.cid = [9] := by
  have h := claim_C6_401_invalidates_token (fun _ => none) (fun _ => none) 0
    (fun _ => TransportResult.response (S "err401") 401 []) (fun _ => none)
    spotifyC6Start spotifyC6NowPlayingReq [] 1 2 (S "err401") []
    rfl rfl rfl rfl rfl (by decide) 5 (by norm_num) 3 4 10 9
  refine ⟨h.1, h.2.1, (h.2.2.2.2.1).trans ?_, ?_⟩
  · rfl
  · rw [h.2.2.2.2.2.1]; rfl

/-! ## Theorems for claim C8 -/

/-- Helper: membership in the first-occurrence fold. -/
theorem mem_distinctFold (l : List Str) :
    ∀ (acc : List Str) (x : Str),
      (x ∈ l.foldl (fun acc r => if r ∈ acc then acc else acc ++ [r]) acc) ↔
        (x ∈ acc ∨ x ∈ l) := by
  induction l with
  | nil => intro acc x; simp
  | cons a l ih =>
    intro acc x
    by_cases ha : a ∈ acc
    · simp only [List.foldl_cons, if_pos ha, ih, List.mem_cons]
      constructor
      · tauto
      · rintro (h | h | h)
        · exact Or.inl h
        · exact Or.inl (h ▸ ha)
        · exact Or.inr h
    · simp only [List.foldl_cons, if_neg ha, ih, List.mem_append,
        List.mem_singleton, List.mem_cons]
      tauto

/-- Helper: the first-occurrence fold keeps the accumulator
duplicate-free. -/
theorem nodup_distinctFold (l : List Str) :
    ∀ acc : List Str, acc.Nodup →
      (l.foldl (fun acc r => if r ∈ acc then acc else acc ++ [r]) acc).Nodup := by
  induction l with
  | nil => intro acc h; simpa using h
  | cons a l ih =>
    intro acc h
    by_cases ha : a ∈ acc
    · simpa [List.foldl_cons, if_pos ha] using ih acc h
    · simp only [List.foldl_cons, if_neg ha]
      exact ih _ (by simp [List.nodup_append, h, ha])

/-- Helper: `distinctFirst` keeps exactly the elements of the list. -/
theorem mem_distinctFirst (x : Str) (l : List Str) :
    x ∈ distinctFirst l ↔ x ∈ l := by
  simpa [distinctFirst] using mem_distinctFold l [] x

/-- Helper: `distinctFirst` is duplicate-free. -/
theorem nodup_distinctFirst (l : List Str) : (distinctFirst l).Nodup :=
  nodup_distinctFold l [] (by simp)

/-- Helper: appending one element extends the first-occurrence list iff
the element is new. -/
theorem distinctFirst_append_singleton (l : List Str) (r : Str) :
    distinctFirst (l ++ [r]) =
      if r ∈ distinctFirst l then distinctFirst l else distinctFirst l ++ [r] := by
  simp [distinctFirst, List.foldl_append]

/-- Helper: a `bumpCount` on a present key bumps exactly that entry. -/
theorem bump_map_of_mem (c : Str → Nat) :
    ∀ (ks : List Str) (r : Str), ks.Nodup → r ∈ ks →
      bumpCount (ks.map (fun k => (k, c k))) r =
        ks.map (fun k => (k, if k = r then c k + 1 else c k)) := by
  intro ks
  induction ks with
  | nil => intro r _ h; simp at h
  | cons k0 ks ih =>
    intro r hnd hr
    by_cases hk : k0 = r
    · subst hk
      simp only [List.map_cons, bumpCount, eq_self_iff_true, if_true]
      congr 1
      apply List.map_congr_left
      intro k hk2
      have hne : k ≠ k0 := fun he => (List.nodup_cons.mp hnd).1 (he ▸ hk2)
      simp [hne]
    · have hr2 : r ∈ ks := by
        rcases List.mem_cons.mp hr with h | h
        · exact absurd h.symm hk
        · exact h
      simp only [List.map_cons, bumpCount, if_neg hk]
      rw [ih r (List.nodup_cons.mp hnd).2 hr2]

/-- Helper: a `bumpCount` on an absent key appends a fresh entry. -/
theorem bump_map_of_not_mem (c : Str → Nat) :
    ∀ (ks : List Str) (r : Str), r ∉ ks →
      bumpCount (ks.map (fun k => (k, c k))) r =
        ks.map (fun k => (k, c k)) ++ [(r, 1)] := by
  intro ks
  induction ks with
  | nil => intro r _; simp [bumpCount]
  | cons k0 ks ih =>
    intro r hr
    have hk : k0 ≠ r := fun he => hr (he ▸ List.mem_cons_self _ _)
    simp only [List.map_cons, bumpCount, if_neg hk, List.cons_append]
    rw [ih r (fun h => hr (List.mem_cons_of_mem _ h))]

/-- Helper: one `bumpCount` step maintains the first-occurrence/count
association-list shape. -/
theorem assocOf_append_singleton (l : List Str) (r : Str) :
    assocOf (l ++ [r]) = bumpCount (assocOf l) r := by
  by_cases hr : r ∈ l
  · have hrd : r ∈ distinctFirst l := (mem_distinctFirst r l).mpr hr
    rw [assocOf, distinctFirst_append_singleton, if_pos hrd, assocOf,
      bump_map_of_mem _ _ r (nodup_distinctFirst l) hrd]
    apply List.map_congr_left
    intro k hk
    by_cases hkr : k = r
    · subst hkr; simp [List.count_append]
    · simp [List.count_append, List.count_singleton', hkr]
  · have hrd : r ∉ distinctFirst l := fun h => hr ((mem_distinctFirst r l).mp h)
    rw [assocOf, distinctFirst_append_singleton, if_neg hrd, assocOf,
      bump_map_of_not_mem _ _ r hrd, List.map_append]
    congr 1
    · apply List.map_congr_left
      intro k hk
      have hne : k ≠ r := fun he => hrd (he ▸ hk)
      simp [List.count_append, List.count_singleton', hne]
    · simp [List.count_append, List.count_singleton',
        List.count_eq_zero.mpr (fun h => hr h)]

/-- Helper: folding `bumpCount` over a route list builds exactly the
first-occurrence/count association list. -/
theorem foldl_bump_eq_assocOf (l2 : List Str) :
    ∀ l1 : List Str, l2.foldl bumpCount (assocOf l1) = assocOf (l1 ++ l2) := by
  induction l2 with
  | nil => intro l1; simp
  | cons r l2 ih =>
    intro l1
    simp only [List.foldl_cons]
    rw [← assocOf_append_singleton, ih, List.append_assoc, List.singleton_append]

/-- Helper: the fold `_pick_primary_route` performs over the arrivals is
the `bumpCount` fold over the stripped non-empty route names. -/
theorem trains_fold_eq (trains : List ArrivingTrain) :
    ∀ acc : List (Str × Nat),
      trains.foldl (fun counts train =>
        let route := pyStrip train.route
        if route = [] then counts else bumpCount counts route) acc =
      (routeNames trains).foldl bumpCount acc := by
  induction trains with
  | nil => intro acc; simp [routeNames]
  | cons t ts ih =>
    intro acc
    by_cases h : pyStrip t.route = []
    · simp only [List.foldl_cons, h, if_pos rfl, routeNames, List.map_cons,
        List.filter_cons]
      simpa [h, routeNames] using ih acc
    · simp only [List.foldl_cons, if_neg h, routeNames, List.map_cons,
        List.filter_cons]
      simpa [h, routeNames] using ih (bumpCount acc (pyStrip t.route))

/-- Helper: a positive maximum count is attained by some entry. -/
theorem maxVals_attained : ∀ l : List (Str × Nat), 0 < maxVals l →
    ∃ p ∈ l, p.2 = maxVals l := by
  intro l
  induction l with
  | nil => intro h; simp [maxVals] at h
  | cons p l ih =>
    intro h
    have hm : maxVals (p :: l) = max p.2 (maxVals l) := rfl
    rcases le_or_lt (maxVals l) p.2 with hp | hp
    · exact ⟨p, List.mem_cons_self _ _, by rw [hm]; omega⟩
    · have h2 : 0 < maxVals l := by omega
      rcases ih h2 with ⟨q, hq, hq2⟩
      exact ⟨q, List.mem_cons_of_mem _ hq, by rw [hm]; omega⟩

/-- Helper: the Python `max` fold returns the incoming best if nothing
beats it, else the first entry attaining the maximum count. -/
theorem maxRun_eq : ∀ (l : List (Str × Nat)) (best : Str × Nat),
    maxRun best l =
      if maxVals l ≤ best.2 then best
      else (l.find? (fun p => p.2 = maxVals l)).getD best := by
  intro l
  induction l with
  | nil => intro best; simp [maxRun, maxVals]
  | cons p l ih =>
    intro best
    have hm : maxVals (p :: l) = max p.2 (maxVals l) := rfl
    simp only [maxRun]
    by_cases hb : maxVals (p :: l) ≤ best.2
    · rw [if_pos hb]
      have h1 : ¬ best.2 < p.2 := by rw [hm] at hb; omega
      rw [if_neg h1, ih best, if_pos (by rw [hm] at hb; omega)]
    · rw [if_neg hb]
      rw [hm] at hb
      by_cases hbp : best.2 < p.2
      · rw [if_pos hbp, ih p]
        rcases le_or_lt (maxVals l) p.2 with hvp | hvp
        · rw [if_pos hvp, List.find?_cons_of_pos _ (by simp [hm]; omega)]
          rfl
        · rw [if_neg (by omega),
            List.find?_cons_of_neg _ (by simp [hm]; omega)]
          have hs : 0 < maxVals l := by omega
          rcases maxVals_attained l hs with ⟨q, hq, hq2⟩
          have : (List.find? (fun p => p.2 = maxVals l) l).isSome :=
            List.find?_isSome.mpr ⟨q, hq, by simp [hq2]⟩
          rcases Option.isSome_iff_exists.mp this with ⟨q0, hq0⟩
          rw [hq0]
          have hmx : maxVals (p :: l) = maxVals l := by rw [hm]; omega
          rw [hmx, hq0]
          rfl
      · rw [if_neg hbp, ih best]
        have hvb : ¬ maxVals l ≤ best.2 := by omega
        rw [if_neg hvb,
          List.find?_cons_of_neg _ (by simp [hm]; omega)]
        have hmx : maxVals (p :: l) = maxVals l := by rw [hm]; omega
        rw [hmx]

/-- Helper: the maximum count of the association list is the maximum of
the counts. -/
theorem maxVals_map (c : Str → Nat) : ∀ ks : List Str,
    maxVals (ks.map (fun k => (k, c k))) = (ks.map c).foldr max 0 := by
  intro ks
  induction ks with
  | nil => rfl
  | cons k ks ih =>
    show max (c k) (maxVals (ks.map (fun k => (k, c k)))) = _
    rw [ih]
    rfl

/-- C8: `_pick_primary_route` returns the non-empty route name occurring
most frequently among the arrivals; when several routes tie for the
maximum count it returns the one occurring first by iteration order over
the arrivals (the first route, in first-appearance order, reaching the
maximum count), and when no arrival has a non-empty route it returns the
empty string — the embedded function coincides with the specification
function `specPrimaryRoute` written from the spec's words. -/
theorem claim_C8_primary_route (trains : List ArrivingTrain) :
    _pick_primary_route trains = specPrimaryRoute trains := by
  have hfold : trains.foldl (fun counts train =>
      let route := pyStrip train.route
      if route = [] then counts else bumpCount counts route) [] =
      assocOf (routeNames trains) := by
    rw [trains_fold_eq]
    have h := foldl_bump_eq_assocOf (routeNames trains) []
    simpa [assocOf, distinctFirst] using h
  cases hd : distinctFirst (routeNames trains) with
  | nil =>
    simp only [_pick_primary_route, hfold, specPrimaryRoute, assocOf, hd,
      List.map_nil, List.find?_nil, Option.getD_none]
  | cons k ks =>
    simp only [_pick_primary_route, hfold, specPrimaryRoute, assocOf, hd,
      List.map_cons]
    rw [maxRun_eq]
    simp only [maxVals_map, List.map_cons, List.foldr_cons]
    split
    next hle =>
      rw [List.find?_cons_of_pos _ (by simp only [decide_eq_true_eq]; omega)]
      rfl
    next hgt =>
      have hvm : maxVals (ks.map (fun r => (r, (routeNames trains).count r))) =
          (ks.map (fun r => (routeNames trains).count r)).foldr max 0 :=
        maxVals_map _ ks
      have hs : 0 < (ks.map (fun r => (routeNames trains).count r)).foldr max 0 := by
        omega
      rcases maxVals_attained _ (by rw [hvm]; omega) with ⟨q, hq, hq2⟩
      rcases List.mem_map.mp hq with ⟨r0, hr0, hr0q⟩
      have hfind : (ks.find? (fun r => (routeNames trains).count r =
          (ks.map (fun r => (routeNames trains).count r)).foldr max 0)).isSome := by
        refine List.find?_isSome.mpr ⟨r0, hr0, ?_⟩
        simp only [decide_eq_true_eq]
        have hq2' : q.2 = (ks.map (fun r => (routeNames trains).count r)).foldr max 0 := by
          rw [hq2, hvm]
        rw [← hr0q] at hq2'
        exact hq2'
      rcases Option.isSome_iff_exists.mp hfind with ⟨rstar, hrstar⟩
      have hmax : max ((routeNames trains).count k)
          ((ks.map (fun r => (routeNames trains).count r)).foldr max 0) =
          (ks.map (fun r => (routeNames trains).count r)).foldr max 0 := by omega
      rw [List.find?_cons_of_neg _ (by simp only [decide_eq_true_eq]; omega)]
      rw [List.find?_map]
      have hpred : ((fun p => decide (p.2 =
          List.foldr max 0 (List.map (fun k => List.count k (routeNames trains)) ks))) ∘
          (fun r => (r, List.count r (routeNames trains)))) =
          (fun r => decide (List.count r (routeNames trains) =
            List.foldr max 0 (List.map (fun r => List.count r (routeNames trains)) ks))) := by
        funext r
        simp [Function.comp]
      simp only [hmax]
      rw [hpred, hrstar]
      rfl

end WidgetDisplay
